import Mathlib

set_option maxRecDepth 40000

/-!
Shallow embedding of the rate-limited ingestion and aggregation pipeline of
the gcs-sales-snapshot repository: the serverless endpoint
`api/task-metrics.ts` (rate limiter, paginated fetchers, worker pool,
aggregation, result cache), the client services
`src/services/tasksApi.ts` / `src/services/dealsApi.ts`, the name
utilities `src/utils/nameUtils.ts`, and the `Tab2Tasks` client-side
aggregation.  JavaScript strings are Lean `String`s, the numbers the code
uses are `Nat`/`Int`, the single-threaded event loop of the rate limiter
is an explicit labelled step function, and the platform `Date` is
modelled at day granularity (see `dateVal`).
-/

/-- Characters removed by the JavaScript `String.prototype.trim` calls in
the sources (the names there only ever carry plain spaces, tabs and line
breaks). -/
def isJsSpace (c : Char) : Bool :=
  c = ' ' || c = '\t' || c = '\n' || c = '\r'

/-- Drop leading JavaScript whitespace from a character list. -/
def dropLeadingSpace : List Char → List Char
  | [] => []
  | c :: t => if isJsSpace c then dropLeadingSpace t else c :: t

/-- Model of `String.prototype.trim` on a character list: strip leading
and trailing whitespace. -/
def trimChars (cs : List Char) : List Char :=
  (dropLeadingSpace (dropLeadingSpace cs).reverse).reverse

/-- The characters of `s.split('|')[0]`: everything before the first
`'|'`, or the whole string when no bar occurs. -/
def takeBeforeBar : List Char → List Char
  | [] => []
  | c :: t => if c = '|' then [] else c :: takeBeforeBar t

/-- Model of `haystack.includes(pat)` on character lists: `pat` occurs as
a contiguous substring of `hay`. -/
def containsSubstring (hay pat : List Char) : Bool :=
  match hay with
  | [] => pat.isEmpty
  | _ :: t => pat.isPrefixOf hay || containsSubstring t pat

/-- Model of the JavaScript `x || fallback` idiom on an optional string:
`none` and the empty string are falsy and select the fallback. -/
def jsOrElse (v : Option String) (fallback : String) : String :=
  match v with
  | some s => if s = "" then fallback else s
  | none => fallback

/-- Embedding of `cleanOwnerName` (src/utils/nameUtils.ts, duplicated in
api/task-metrics.ts): `if (!fullName) return ''` and otherwise
`fullName.split('|')[0].trim()`. -/
def cleanOwnerName (fullName : String) : String :=
  if fullName = "" then ""
  else String.mk (trimChars (takeBeforeBar fullName.toList))

/-- The exclusion substring of `shouldExcludeOwner`, lower case. -/
def operatorPat : List Char := "global citizen solutions operator".toList

/-- Embedding of `shouldExcludeOwner` (src/utils/nameUtils.ts): owner id
`'16'` is excluded unconditionally; otherwise the lower-cased display
name must contain the substring `"global citizen solutions operator"`.
The optional `ownerId` argument mirrors the optional parameter. -/
def shouldExcludeOwner (fullName : String) (ownerId : Option String) : Bool :=
  if ownerId = some "16" then true
  else containsSubstring (fullName.toList.map Char.toLower) operatorPat

/-- Numeric value of a decimal digit character. -/
def digitVal (c : Char) : Option Nat :=
  if c.isDigit then some (c.toNat - 48) else none

/-- Day-granularity model of the JavaScript `new Date(string)` used by
`isTaskOverdue` and `isTaskFutureDueDate`: an ISO `YYYY-MM-DD` date-only
string parses to `y * 10000 + m * 100 + d`, whose numeric order agrees
with calendar order; any other string stands for the JS Invalid Date,
whose `<` and `>=` comparisons are both false, rendered here as `none`.
The current date (`new Date()` with hours zeroed) is likewise a day
value. -/
def dateVal (s : String) : Option Nat :=
  match s.toList with
  | [y1, y2, y3, y4, b1, m1, m2, b2, d1, d2] =>
    match digitVal y1, digitVal y2, digitVal y3, digitVal y4,
          digitVal m1, digitVal m2, digitVal d1, digitVal d2 with
    | some a, some b, some c, some d, some m, some n, some p, some q =>
      if b1 = '-' ∧ b2 = '-' then
        let mo := m * 10 + n
        let da := p * 10 + q
        if 1 ≤ mo ∧ mo ≤ 12 ∧ 1 ≤ da ∧ da ≤ 31 then
          some ((((a * 10 + b) * 10 + c) * 10 + d) * 10000 + mo * 100 + da)
        else none
      else none
    | _, _, _, _, _, _, _, _ => none
  | _ => none

/-- The dynamically typed `status: string | number` field of a task. -/
inductive StatusVal where
  | num : Int → StatusVal
  | str : String → StatusVal
deriving DecidableEq

/-- Embedding of `task.status === 1 || task.status === '1'`
(api/task-metrics.ts): strict equality distinguishes the number `1` from
the string `"1"`, and the code accepts both. -/
def statusIsComplete : StatusVal → Bool
  | .num n => n == 1
  | .str s => s == "1"

/-- Embedding of the JavaScript truthiness test `!task.duedate`: both a
missing due date and the empty string are falsy. -/
def duedateFalsy : Option String → Bool
  | none => true
  | some s => s == ""

/-- A deal as used by the aggregation (api/task-metrics.ts `Deal`):
only `id` and `owner` matter to the metrics. -/
structure DealRec where
  id : String
  owner : String
deriving DecidableEq

/-- A deal task (api/task-metrics.ts `DealTask`) restricted to the fields
the aggregation reads. -/
structure TaskRec where
  id : String
  status : StatusVal
  duedate : Option String
  dealId : String
deriving DecidableEq

/-- Embedding of `isTaskOverdue` (api/task-metrics.ts): a task is overdue
iff it is not completed, its due date is truthy, and the parsed due date
is strictly before today; an unparseable date (JS Invalid Date) makes the
comparison false. -/
def isTaskOverdue (today : Nat) (t : TaskRec) : Bool :=
  if statusIsComplete t.status then false
  else if duedateFalsy t.duedate then false
  else
    match t.duedate with
    | none => false
    | some d =>
      match dateVal d with
      | some v => decide (v < today)
      | none => false

/-- Embedding of `isTaskFutureDueDate` (api/task-metrics.ts): not
completed, truthy due date, and the parsed due date is on or after
today. -/
def isTaskFutureDueDate (today : Nat) (t : TaskRec) : Bool :=
  if statusIsComplete t.status then false
  else if duedateFalsy t.duedate then false
  else
    match t.duedate with
    | none => false
    | some d =>
      match dateVal d with
      | some v => decide (today ≤ v)
      | none => false

/-- The `TaskMetrics` accumulator of api/task-metrics.ts. -/
structure TaskMetrics where
  owner : String
  ownerId : String
  total : Nat
  completed : Nat
  overdue : Nat
  openFutureDueDate : Nat
  openNoDueDate : Nat
deriving DecidableEq

/-- A fresh accumulator as created in Step 4 of `calculateMetrics`. -/
def initMetric (owner ownerId : String) : TaskMetrics :=
  { owner := owner, ownerId := ownerId, total := 0, completed := 0,
    overdue := 0, openFutureDueDate := 0, openNoDueDate := 0 }

/-- Embedding of the per-task body of Step 4 of `calculateMetrics`
(api/task-metrics.ts lines 281-297): `total` always increments, then
exactly one branch of the completed / no-due-date / overdue / future
cascade fires — or none, when the due date is truthy but classifies as
neither overdue nor future. -/
def classifyUpdate (today : Nat) (m : TaskMetrics) (t : TaskRec) : TaskMetrics :=
  let m1 := { m with total := m.total + 1 }
  if statusIsComplete t.status then { m1 with completed := m1.completed + 1 }
  else if duedateFalsy t.duedate then { m1 with openNoDueDate := m1.openNoDueDate + 1 }
  else if isTaskOverdue today t then { m1 with overdue := m1.overdue + 1 }
  else if isTaskFutureDueDate today t then { m1 with openFutureDueDate := m1.openFutureDueDate + 1 }
  else m1

/-- Lookup in an insertion-ordered association list modelling a JS `Map`
(`map.get(k)`). -/
def lookupStr {α : Type} : List (String × α) → String → Option α
  | [], _ => none
  | (k2, v) :: t, k => if k2 = k then some v else lookupStr t k

/-- Model of `map.has(k)`. -/
def hasKey {α : Type} (m : List (String × α)) (k : String) : Bool :=
  (lookupStr m k).isSome

/-- Apply a function to the value stored under `k`, leaving other entries
and the insertion order untouched — the in-place mutation
`map.get(k).field++` of the sources. -/
def updateEntry {α : Type} : List (String × α) → String → (α → α) → List (String × α)
  | [], _, _ => []
  | (k2, v) :: t, k, f => if k2 = k then (k2, f v) :: t else (k2, v) :: updateEntry t k f

/-- Model of `map.set(k, v)`: overwrite in place when the key exists,
append otherwise (JS `Map` preserves insertion order). -/
def setEntry {α : Type} (m : List (String × α)) (k : String) (v : α) : List (String × α) :=
  if hasKey m k then updateEntry m k (fun _ => v) else m ++ [(k, v)]

/-- One iteration of the `allDeals.forEach` loop of Step 4 of
`calculateMetrics` (api/task-metrics.ts lines 261-298): resolve the owner
display name (`userMap.get(ownerId) || 'User ' + ownerId`, then
`cleanOwnerName`), create the accumulator on first sight of the owner id,
and fold every task with `dealId === deal.id` through `classifyUpdate`. -/
def metricsFold (today : Nat) (userMap : List (String × String))
    (tasks : List TaskRec) (acc : List (String × TaskMetrics)) (deal : DealRec) :
    List (String × TaskMetrics) :=
  let ownerName := jsOrElse (lookupStr userMap deal.owner) ("User " ++ deal.owner)
  let cleanName := cleanOwnerName ownerName
  let acc1 := if hasKey acc deal.owner then acc
              else acc ++ [(deal.owner, initMetric cleanName deal.owner)]
  let dealTasks := tasks.filter (fun t => t.dealId == deal.id)
  updateEntry acc1 deal.owner (fun met => dealTasks.foldl (classifyUpdate today) met)

/-- Code-point comparison of character lists, the model used here for the
`localeCompare`-based final sort (none of the verified claims depends on
the collation). -/
def charListLe : List Char → List Char → Bool
  | [], _ => true
  | _ :: _, [] => false
  | a :: as, b :: bs => if a = b then charListLe as bs else decide (a < b)

/-- Comparator of the final `metrics.sort((a, b) =>
a.owner.localeCompare(b.owner))`. -/
def ownerLe (a b : TaskMetrics) : Bool :=
  charListLe a.owner.toList b.owner.toList

/-- Insert into a sorted list, keeping earlier elements first on ties. -/
def insertSorted {α : Type} (le : α → α → Bool) (a : α) : List α → List α
  | [] => [a]
  | b :: t => if le a b then a :: b :: t else b :: insertSorted le a t

/-- Insertion sort, the model of `Array.prototype.sort` with a comparator
(stable, produces a `le`-ordered permutation). -/
def sortListBy {α : Type} (le : α → α → Bool) (l : List α) : List α :=
  l.foldr (insertSorted le) []

/-- Embedding of Step 4 of `calculateMetrics` (api/task-metrics.ts lines
259-305) as a pure function of the fetched data: fold all deals through
`metricsFold`, take the accumulator values in insertion order, and sort
them by owner display name. -/
def calcStep4 (today : Nat) (userMap : List (String × String))
    (deals : List DealRec) (tasks : List TaskRec) : List TaskMetrics :=
  sortListBy ownerLe ((deals.foldl (metricsFold today userMap tasks) []).map Prod.snd)

/-- Sum of the four mutually exclusive completion buckets of an
accumulator. -/
def bucketSum (m : TaskMetrics) : Nat :=
  m.completed + m.overdue + m.openFutureDueDate + m.openNoDueDate

/-- A task lands in one of the four buckets of `classifyUpdate` exactly
when it is completed, its due date is falsy, or its due date string
parses as a date; an incomplete task with a truthy unparseable due date
falls through every branch. -/
def classifiable (t : TaskRec) : Bool :=
  statusIsComplete t.status || duedateFalsy t.duedate ||
    (match t.duedate with
     | none => true
     | some d => (dateVal d).isSome)

/-- The configured owner id set of api/task-metrics.ts and
src/services/dealsApi.ts. -/
def OWNER_IDS : List String :=
  ["58", "74", "85", "89", "95", "96", "111", "117", "18"]

/-- A task as consumed by the `Tab2Tasks` client-side aggregation
(src/unnamed/part_004): assignee id, status and due date. -/
structure T2Task where
  assignee_userid : String
  status : StatusVal
  duedate : Option String
deriving DecidableEq

/-- The accumulator of the `Tab2Tasks` aggregation: keyed by display
name, with an `incompleteNoDueDate` bucket instead of the two open
buckets of the endpoint variant. -/
structure T2Metrics where
  owner : String
  total : Nat
  completed : Nat
  overdue : Nat
  incompleteNoDueDate : Nat
deriving DecidableEq

/-- Completion check of the `Tab2Tasks` aggregation: `task.status === 1`
only (the string form is not accepted there). -/
def t2Complete : StatusVal → Bool
  | .num n => n == 1
  | .str _ => false

/-- Embedding of `isTaskOverdue` from src/unnamed/part_000
(`src/utils/dateUtils.ts`), the variant `Tab2Tasks` imports: a task is
overdue iff it is not complete — where, unlike the `Tab2Tasks` completed
branch, both the number `1` and the string `"1"` count as complete
(`task.status === 1 || task.status === '1'`) — its due date is truthy,
and the due date parsed with date-fns `parse(duedate, 'yyyy-MM-dd', ...)`
is strictly before the start of today; `parse` on a non-matching string
yields an invalid date, whose `isBefore` is false, rendered by `dateVal`
as `none`. -/
def t2IsTaskOverdue (today : Nat) (t : T2Task) : Bool :=
  if statusIsComplete t.status then false
  else if duedateFalsy t.duedate then false
  else
    match t.duedate with
    | none => false
    | some d =>
      match dateVal d with
      | some v => decide (v < today)
      | none => false

/-- The display name `Tab2Tasks` resolves for a task:
`userMap.get(userId) || 'User ' + userId`. -/
def t2ResolvedName (userMap : List (String × String)) (t : T2Task) : String :=
  jsOrElse (lookupStr userMap t.assignee_userid) ("User " ++ t.assignee_userid)

/-- The exclusion filter of `Tab2Tasks`:
`userId === '16' || shouldExcludeOwner(userName, userId)`. -/
def t2Excluded (userMap : List (String × String)) (t : T2Task) : Bool :=
  t.assignee_userid == "16" ||
    shouldExcludeOwner (t2ResolvedName userMap t) (some t.assignee_userid)

/-- Per-task counter update of the `Tab2Tasks` aggregation. -/
def t2Classify (today : Nat) (t : T2Task) (m : T2Metrics) : T2Metrics :=
  let m1 := { m with total := m.total + 1 }
  if t2Complete t.status then { m1 with completed := m1.completed + 1 }
  else if duedateFalsy t.duedate then { m1 with incompleteNoDueDate := m1.incompleteNoDueDate + 1 }
  else if t2IsTaskOverdue today t then { m1 with overdue := m1.overdue + 1 }
  else m1

/-- One iteration of the `tasks.forEach` loop of the `Tab2Tasks` metrics
computation (src/unnamed/part_004 lines 273-305): excluded assignees are
skipped before any accumulator is touched; otherwise the accumulator
keyed by the resolved display name is created on demand and updated. -/
def t2Fold (today : Nat) (userMap : List (String × String))
    (acc : List (String × T2Metrics)) (t : T2Task) : List (String × T2Metrics) :=
  if t2Excluded userMap t then acc
  else
    let userName := t2ResolvedName userMap t
    let acc1 := if hasKey acc userName then acc
                else acc ++ [(userName,
                  { owner := userName, total := 0, completed := 0,
                    overdue := 0, incompleteNoDueDate := 0 })]
    updateEntry acc1 userName (t2Classify today t)

/-- Comparator of the `Tab2Tasks` final sort by owner name. -/
def t2OwnerLe (a b : T2Metrics) : Bool :=
  charListLe a.owner.toList b.owner.toList

/-- Embedding of the `Tab2Tasks` metrics computation
(src/unnamed/part_004): fold all tasks, then sort the accumulators by
owner display name. -/
def tab2Metrics (today : Nat) (userMap : List (String × String))
    (tasks : List T2Task) : List T2Metrics :=
  sortListBy t2OwnerLe ((tasks.foldl (t2Fold today userMap) []).map Prod.snd)

/-- The `maxConcurrent` ceiling of the `RateLimiter`
(api/task-metrics.ts line 6). -/
def maxConcurrent : Nat := 20

/-- The `minInterval` floor of the `RateLimiter` (200 ms, five requests
per second, api/task-metrics.ts line 8). -/
def minInterval : Nat := 200

/-- State of the `RateLimiter` instance together with the event-loop
bookkeeping needed to replay its behaviour: the event-loop clock, the
FIFO `queue` of deferred `execute` closures, the `activeRequests` and
`lastRequestTime` fields, the set of callers suspended in the
`setTimeout` interval wait (with their wake times), the callers whose
wrapped `fn()` is in flight, the log of admission times (each moment
`lastRequestTime = Date.now(); activeRequests++` runs), and the ids seen
so far. -/
structure LimiterState where
  time : Nat
  queue : List Nat
  activeRequests : Nat
  lastRequestTime : Nat
  waiting : List (Nat × Nat)
  running : List Nat
  startTimes : List (Nat × Nat)
  seen : List Nat
deriving DecidableEq

/-- The limiter before any call: counters zero, everything empty. -/
def initLimiter : LimiterState :=
  { time := 0, queue := [], activeRequests := 0, lastRequestTime := 0,
    waiting := [], running := [], startTimes := [], seen := [] }

/-- The admission tail of `execute` (api/task-metrics.ts lines 20-24):
`lastRequestTime = Date.now(); activeRequests++;` and `fn()` is invoked.
This is run both on the no-wait path and when a `setTimeout` waiter
resumes, in both cases without re-checking the counters. -/
def admitStart (tid : Nat) (s : LimiterState) : LimiterState :=
  { s with lastRequestTime := s.time, activeRequests := s.activeRequests + 1,
           running := s.running ++ [tid], startTimes := s.startTimes ++ [(tid, s.time)] }

/-- The synchronous head of `execute` (api/task-metrics.ts lines 12-18):
compute `timeSinceLastRequest`; when it is below `minInterval` the caller
suspends in `setTimeout` until `now + (minInterval -
timeSinceLastRequest)` — crucially before `activeRequests` is
incremented; otherwise admission happens immediately. -/
def execBegin (tid : Nat) (s : LimiterState) : LimiterState :=
  let timeSinceLast := s.time - s.lastRequestTime
  if timeSinceLast < minInterval then
    { s with waiting := s.waiting ++ [(tid, s.time + (minInterval - timeSinceLast))] }
  else admitStart tid s

/-- Embedding of `processQueue` (api/task-metrics.ts lines 42-47): when
the queue is non-empty and a slot is free, the head closure is dequeued
and its `execute` runs. -/
def processQueue (s : LimiterState) : LimiterState :=
  match s.queue with
  | [] => s
  | h :: t =>
    if s.activeRequests < maxConcurrent then execBegin h { s with queue := t }
    else s

/-- An atomic turn of the single-threaded event loop touching the
limiter: a new `throttle` call arrives, a `setTimeout` waiter resumes, or
an in-flight `fn()` settles (running the `finally` block). Each carries
the `Date.now()` at which it runs. -/
inductive LimiterEvent where
  | arrive : Nat → Nat → LimiterEvent
  | wake : Nat → Nat → LimiterEvent
  | complete : Nat → Nat → LimiterEvent
deriving DecidableEq

/-- One event-loop turn. Returns `none` when the event is invalid in the
given state: time must be monotone, an arriving id must be fresh, a
waiter can only wake once its timer is due, and only an in-flight call
can settle. `arrive` mirrors `throttle` (api/task-metrics.ts lines
34-38): run `execute` when `activeRequests < maxConcurrent`, otherwise
push it on the queue. `complete` mirrors the `finally` block:
`activeRequests--` then `processQueue()`. -/
def limiterStep (s : LimiterState) (e : LimiterEvent) : Option LimiterState :=
  match e with
  | .arrive tid t =>
    if s.time ≤ t ∧ s.seen.contains tid = false then
      let s1 := { s with time := t, seen := s.seen ++ [tid] }
      if s1.activeRequests < maxConcurrent then some (execBegin tid s1)
      else some { s1 with queue := s1.queue ++ [tid] }
    else none
  | .wake tid t =>
    match s.waiting.find? (fun p => p.1 == tid) with
    | some (_, w) =>
      if s.time ≤ t ∧ w ≤ t then
        some (admitStart tid
          { s with time := t, waiting := s.waiting.filter (fun p => p.1 != tid) })
      else none
    | none => none
  | .complete tid t =>
    if s.time ≤ t ∧ s.running.contains tid = true then
      some (processQueue
        { s with time := t, running := s.running.filter (fun x => x != tid),
                 activeRequests := s.activeRequests - 1 })
    else none

/-- Replay a list of event-loop turns from the fresh limiter; `none` when
any turn is invalid. -/
def limiterRun (events : List LimiterEvent) : Option LimiterState :=
  events.foldl (fun acc e => acc.bind (fun s => limiterStep s e)) (some initLimiter)

/-- A burst scenario: one call at t = 1000 (admitted immediately), then
21 further calls in the same millisecond — each passes the
`activeRequests < maxConcurrent` check and suspends in the interval wait
— the first call settling at t = 1050, and all 21 waiters resuming when
their shared 200 ms timer fires at t = 1200. -/
def c1Trace : List LimiterEvent :=
  [LimiterEvent.arrive 0 1000]
    ++ (List.range 21).map (fun i => LimiterEvent.arrive (i + 1) 1000)
    ++ [LimiterEvent.complete 0 1050]
    ++ (List.range 21).map (fun i => LimiterEvent.wake (i + 1) 1200)

/-- A smaller burst: three calls at t = 1000; the first starts at once,
the other two wait out the interval and both start at t = 1200. -/
def c2Trace : List LimiterEvent :=
  [LimiterEvent.arrive 0 1000, LimiterEvent.arrive 1 1000,
   LimiterEvent.arrive 2 1000, LimiterEvent.wake 1 1200, LimiterEvent.wake 2 1200]

/-- A user directory entry (api/task-metrics.ts `User`). -/
structure UserRec where
  id : String
  firstName : String
  lastName : String
  email : String
deriving DecidableEq

/-- The per-user display-name normalisation of the users loop
(api/task-metrics.ts lines 161-170 and src/services/tasksApi.ts):
concatenate first and last name, trim, cut at the first `'|'` when one
occurs, and fall back to `user.email || 'User ' + user.id` when the
result is empty. -/
def userCleanName (u : UserRec) : String :=
  let fullName := String.mk (trimChars (u.firstName ++ " " ++ u.lastName).toList)
  let cleanName := if fullName.toList.contains '|' then
      String.mk (trimChars (takeBeforeBar fullName.toList))
    else fullName
  if cleanName = "" then jsOrElse (some u.email) ("User " ++ u.id) else cleanName

/-- Embedding of the users pagination loop of `calculateMetrics`
(api/task-metrics.ts lines 155-178), driven by the sequence of responses
the successive page requests receive (offsets grow by `limit` each
round, so the i-th request consumes the i-th response; an exhausted
response list stands for a request answered by an empty page, and
`Except.error` for a rejected `rateLimiter.throttle(fetchFromAPI(...))`
call).  The loop body has no try/catch: a failed page makes the whole
loop — and with it `calculateMetrics` — reject. -/
def usersLoop (limit : Nat) :
    List (Except String (List UserRec)) → List (String × String) →
    Except String (List (String × String))
  | [], userMap => Except.ok userMap
  | Except.error e :: _, _ => Except.error e
  | Except.ok page :: rest, userMap =>
    if page.length = 0 then Except.ok userMap
    else
      let userMap2 := page.foldl (fun mp u => setEntry mp u.id (userCleanName u)) userMap
      if page.length = limit then usersLoop limit rest userMap2
      else Except.ok userMap2

/-- Embedding of the per-owner deals pagination loop (api/task-metrics.ts
lines 193-209, identical in src/services/dealsApi.ts): the body is
wrapped in try/catch, so a failed page sets `hasMore = false` and the
loop returns everything accumulated so far; it never rejects. -/
def ownerDealsLoop (limit : Nat) :
    List (Except String (List DealRec)) → List DealRec → List DealRec
  | [], acc => acc
  | Except.error _ :: _, acc => acc
  | Except.ok page :: rest, acc =>
    if page.length = 0 then acc
    else if page.length = limit then ownerDealsLoop limit rest (acc ++ page)
    else acc ++ page

/-- Embedding of one tasks worker (api/task-metrics.ts lines 223-251,
identical in src/services/dealsApi.ts): one request per deal of the
slice, each wrapped in try/catch, so a failed request is logged and the
loop continues with the next deal; non-empty pages are accumulated. -/
def tasksWorkerLoop : List (Except String (List TaskRec)) → List TaskRec
  | [] => []
  | Except.error _ :: rest => tasksWorkerLoop rest
  | Except.ok page :: rest =>
    if page.length = 0 then tasksWorkerLoop rest
    else page ++ tasksWorkerLoop rest

/-- Embedding of the pagination loop over a fixed resource: the request
at offset `o` is answered with `(resource.drop o).take limit`, matching
`GET ...?limit=<limit>&offset=<o>` against a stable collection.  Returns
the accumulated records and the list of page sizes the requests
received, in request order: the loop continues exactly while a page has
`limit` records (`hasMore = page.length === limit`), and a final short —
possibly empty — page is consumed by one last request. -/
def pagedFetch (limit : Nat) (resource : List DealRec) : List DealRec × List Nat :=
  let page := resource.take limit
  if h : page.length = limit ∧ 0 < limit then
    let rest := pagedFetch limit (resource.drop limit)
    (page ++ rest.1, page.length :: rest.2)
  else (page, [page.length])
termination_by resource.length
decreasing_by
  simp only [List.length_drop]
  have h1 := h.1
  rw [List.length_take] at h1
  omega

/-- `Math.ceil(n / 20)`, the `batchSize` of the tasks worker pool
(api/task-metrics.ts line 222). -/
def batchSizeOf (n : Nat) : Nat := (n + 19) / 20

/-- The slice of the deal list processed by worker `workerIndex`
(api/task-metrics.ts lines 224-228): indices from
`workerIndex * batchSize` up to `min(startIndex + batchSize,
allDeals.length)`. -/
def workerSlice (items : List DealRec) (workerIndex : Nat) : List DealRec :=
  let b := batchSizeOf items.length
  let s := workerIndex * b
  let e := min (s + b) items.length
  (items.drop s).take (e - s)

/-- The concatenation of all 20 workers' slices in worker order — the
order `Promise.all` hands the partial results back for
`workerResults.forEach(tasks => allTasks.push(...tasks))`. -/
def allWorkerItems (items : List DealRec) : List DealRec :=
  ((List.range 20).map (fun w => workerSlice items w)).flatten

/-- The module-level cache entry of api/task-metrics.ts (`cachedData`). -/
structure CacheEntry where
  metrics : List TaskMetrics
  timestamp : Int
deriving DecidableEq

/-- `CACHE_DURATION` (one hour in milliseconds). -/
def CACHE_DURATION : Int := 60 * 60 * 1000

/-- The JSON body the handler sends: metrics with the `cached` flag, or
an error message. -/
inductive HandlerBody where
  | metricsBody : List TaskMetrics → Bool → HandlerBody
  | errorBody : String → HandlerBody
deriving DecidableEq

/-- Observable outcome of one handler invocation: HTTP status, body, and
the module-level `cachedData` after the call. -/
structure HandlerResult where
  status : Nat
  body : HandlerBody
  cache : Option CacheEntry
deriving DecidableEq

/-- JavaScript falsiness of an optional environment string: absent or
empty. -/
def strFalsy : Option String → Bool
  | none => true
  | some s => s == ""

/-- The recomputation path of the handler (api/task-metrics.ts lines
338-359): `await calculateMetrics(...)` either resolves — the result is
stored as the new cache entry stamped with `now` and returned with
`cached: false` — or throws, in which case the catch block answers 500
with the error and `cachedData` is left untouched. -/
def handlerCompute (cache : Option CacheEntry) (now : Int)
    (compute : Except String (List TaskMetrics)) : HandlerResult :=
  match compute with
  | Except.ok ms => { status := 200, body := HandlerBody.metricsBody ms false,
                      cache := some { metrics := ms, timestamp := now } }
  | Except.error e => { status := 500, body := HandlerBody.errorBody e, cache := cache }

/-- Embedding of the handler of api/task-metrics.ts (GET path): missing
or empty `AC_API_URL` / `AC_API_TOKEN` answer 500 before anything else;
a cache entry younger than `CACHE_DURATION` is served with
`cached: true`; otherwise the pipeline runs (`compute` being the outcome
of `calculateMetrics`). -/
def handlerModel (apiUrl apiToken : Option String) (cache : Option CacheEntry)
    (now : Int) (compute : Except String (List TaskMetrics)) : HandlerResult :=
  if strFalsy apiUrl || strFalsy apiToken then
    { status := 500, body := HandlerBody.errorBody "API configuration missing",
      cache := cache }
  else
    match cache with
    | some entry =>
      if now - entry.timestamp < CACHE_DURATION then
        { status := 200, body := HandlerBody.metricsBody entry.metrics true,
          cache := some entry }
      else handlerCompute cache now compute
    | none => handlerCompute cache now compute

/-- Concrete task list used to instantiate the amended C5 theorem. -/
def c5WitTasks : List TaskRec := [⟨"t1", StatusVal.num 0, some "2024-01-01", "d1"⟩]

/-- The accumulator `calcStep4` produces on `c5WitTasks`. -/
def c5WitMetric : TaskMetrics :=
  { owner := "Jane", ownerId := "58", total := 1, completed := 0,
    overdue := 1, openFutureDueDate := 0, openNoDueDate := 0 }

/-- A fresh accumulator for the owner of the C8 scenario. -/
def c8Jane : TaskMetrics := initMetric "Jane" "58"

/-- Concrete task list used to instantiate the amended C4 theorem. -/
def c4WitTasks : List T2Task := [⟨"58", StatusVal.num 1, none⟩]

/-- The accumulator `tab2Metrics` produces on `c4WitTasks`. -/
def c4WitM : T2Metrics :=
  { owner := "Jane", total := 1, completed := 1, overdue := 0, incompleteNoDueDate := 0 }

/-- Concrete full-page prefix used to instantiate the amended C3 theorem. -/
def c3WitPre : List (List DealRec) := [[⟨"a", "58"⟩, ⟨"b", "58"⟩]]

/-- A resource of exactly `2 * 2` records for the C6 boundary case. -/
def c6WitA : List DealRec := [⟨"a", "58"⟩, ⟨"b", "58"⟩, ⟨"c", "58"⟩, ⟨"d", "58"⟩]

/-- A resource of `2 * 2 + 1` records for the C6 short-page case. -/
def c6WitB : List DealRec :=
  [⟨"a", "58"⟩, ⟨"b", "58"⟩, ⟨"c", "58"⟩, ⟨"d", "58"⟩, ⟨"e", "58"⟩]

/-- Membership in an insertion is membership in the inserted element or
the original list. -/
theorem mem_insertSorted {α : Type} {le : α → α → Bool} {a x : α} :
    ∀ {l : List α}, x ∈ insertSorted le a l ↔ x = a ∨ x ∈ l := by
  intro l
  induction l with
  | nil => simp [insertSorted]
  | cons b t ih =>
    simp only [insertSorted]
    split
    · simp [List.mem_cons]
    · simp only [List.mem_cons, ih]
      tauto

/-- Sorting does not change membership. -/
theorem mem_sortListBy {α : Type} {le : α → α → Bool} {x : α} :
    ∀ {l : List α}, x ∈ sortListBy le l ↔ x ∈ l := by
  intro l
  induction l with
  | nil => simp [sortListBy]
  | cons b t ih =>
    simp only [sortListBy, List.foldr] at ih ⊢
    rw [mem_insertSorted]
    simp only [List.mem_cons, ih]

/-- One `classifyUpdate` step keeps the bucket sum equal to `total` as
long as the task is classifiable. -/
theorem classifyUpdate_sum (today : Nat) (m : TaskMetrics) (t : TaskRec)
    (hcl : classifiable t = true) (hm : bucketSum m = m.total) :
    bucketSum (classifyUpdate today m t) = (classifyUpdate today m t).total := by
  simp only [bucketSum] at hm ⊢
  cases h1 : statusIsComplete t.status with
  | true => simp [classifyUpdate, h1] <;> omega
  | false =>
  cases h2 : duedateFalsy t.duedate with
  | true => simp [classifyUpdate, h1, h2] <;> omega
  | false =>
  cases hd : t.duedate with
  | none => rw [hd] at h2; simp [duedateFalsy] at h2
  | some d =>
  cases hv : dateVal d with
  | none =>
    exfalso
    unfold classifiable at hcl
    rw [h1, h2, hd] at hcl
    simp [hv] at hcl
  | some v =>
    have hov : isTaskOverdue today t = decide (v < today) := by
      unfold isTaskOverdue
      rw [h1, h2, hd]
      simp [hv]
    have hfu : isTaskFutureDueDate today t = decide (today ≤ v) := by
      unfold isTaskFutureDueDate
      rw [h1, h2, hd]
      simp [hv]
    by_cases h3 : v < today
    · simp [classifyUpdate, h1, h2, hov, hfu, h3] <;> omega
    · simp [classifyUpdate, h1, h2, hov, hfu, h3, Nat.le_of_not_lt h3] <;> omega

/-- The per-deal task fold keeps the bucket sum equal to `total`. -/
theorem foldl_classify_sum (today : Nat) (ts : List TaskRec)
    (hcl : ∀ t ∈ ts, classifiable t = true) (m : TaskMetrics)
    (hm : bucketSum m = m.total) :
    bucketSum (ts.foldl (classifyUpdate today) m)
      = (ts.foldl (classifyUpdate today) m).total := by
  induction ts generalizing m with
  | nil => simpa using hm
  | cons t ts ih =>
    simp only [List.foldl]
    exact ih (fun x hx => hcl x (List.mem_cons_of_mem _ hx)) _
      (classifyUpdate_sum today m t (hcl t (List.mem_cons_self _ _)) hm)

/-- `updateEntry` preserves a value invariant when the update function
does. -/
theorem updateEntry_forall {α : Type} (P : α → Prop) :
    ∀ (l : List (String × α)) (k : String) (f : α → α),
      (∀ e ∈ l, P e.2) → (∀ a, P a → P (f a)) → ∀ e ∈ updateEntry l k f, P e.2 := by
  intro l
  induction l with
  | nil => intro k f h hf e he; simp [updateEntry] at he
  | cons b t ih =>
    intro k f h hf e he
    simp only [updateEntry] at he
    split at he
    · rcases List.mem_cons.mp he with h1 | h1
      · subst h1; exact hf _ (h b (List.mem_cons_self _ _))
      · exact h e (List.mem_cons_of_mem _ h1)
    · rcases List.mem_cons.mp he with h1 | h1
      · subst h1; exact h b (List.mem_cons_self _ _)
      · exact ih k f (fun e2 he2 => h e2 (List.mem_cons_of_mem _ he2)) hf e h1

/-- One `metricsFold` step keeps every stored accumulator's bucket sum
equal to its `total`. -/
theorem metricsFold_sum (today : Nat) (userMap : List (String × String))
    (tasks : List TaskRec) (hcl : ∀ t ∈ tasks, classifiable t = true)
    (acc : List (String × TaskMetrics)) (deal : DealRec)
    (h : ∀ e ∈ acc, bucketSum e.2 = e.2.total) :
    ∀ e ∈ metricsFold today userMap tasks acc deal, bucketSum e.2 = e.2.total := by
  intro e he
  unfold metricsFold at he
  refine updateEntry_forall (fun a => bucketSum a = a.total) _ _ _ ?_ ?_ e he
  · intro e2 he2
    by_cases hk : hasKey acc deal.owner = true
    · rw [if_pos hk] at he2
      exact h e2 he2
    · rw [if_neg hk] at he2
      rcases List.mem_append.mp he2 with h1 | h1
      · exact h e2 h1
      · rcases List.mem_singleton.mp h1 with rfl
        simp [initMetric, bucketSum]
  · intro a ha
    exact foldl_classify_sum today _
      (fun t ht => hcl t (List.mem_of_mem_filter ht)) a ha

/-- Every accumulator `calcStep4` produces from classifiable tasks has
bucket sum equal to `total`. -/
theorem calcStep4_sum (today : Nat) (userMap : List (String × String))
    (deals : List DealRec) (tasks : List TaskRec)
    (hcl : ∀ t ∈ tasks, classifiable t = true) :
    ∀ m ∈ calcStep4 today userMap deals tasks, bucketSum m = m.total := by
  have key : ∀ (ds : List DealRec) (acc : List (String × TaskMetrics)),
      (∀ e ∈ acc, bucketSum e.2 = e.2.total) →
      ∀ e ∈ ds.foldl (metricsFold today userMap tasks) acc, bucketSum e.2 = e.2.total := by
    intro ds
    induction ds with
    | nil => intro acc h e he; exact h e he
    | cons deal ds ih =>
      intro acc h e he
      exact ih _ (metricsFold_sum today userMap tasks hcl acc deal h) e he
  intro m hm
  unfold calcStep4 at hm
  rw [mem_sortListBy] at hm
  rcases List.mem_map.mp hm with ⟨e, he, rfl⟩
  exact key deals [] (by simp) e he

/-- The `Tab2Tasks` counter update never changes the `owner` field. -/
theorem t2Classify_owner (today : Nat) (t : T2Task) (m : T2Metrics) :
    (t2Classify today t m).owner = m.owner := by
  unfold t2Classify
  split_ifs <;> rfl

/-- Every accumulator the `Tab2Tasks` fold stores was created for the
resolved name of some non-excluded task. -/
theorem t2Fold_good (today : Nat) (userMap : List (String × String))
    (tasks : List T2Task) :
    ∀ (l : List T2Task), (∀ x ∈ l, x ∈ tasks) →
    ∀ (acc : List (String × T2Metrics)),
      (∀ e ∈ acc, ∃ t ∈ tasks, t2Excluded userMap t = false
          ∧ (e.2).owner = t2ResolvedName userMap t) →
      ∀ e ∈ l.foldl (t2Fold today userMap) acc,
        ∃ t ∈ tasks, t2Excluded userMap t = false
          ∧ (e.2).owner = t2ResolvedName userMap t := by
  intro l
  induction l with
  | nil => intro _ acc h e he; exact h e he
  | cons x l ih =>
    intro hsub acc h e he
    simp only [List.foldl] at he
    refine ih (fun y hy => hsub y (List.mem_cons_of_mem _ hy)) _ ?_ e he
    intro e2 he2
    unfold t2Fold at he2
    by_cases hex : t2Excluded userMap x = true
    · rw [if_pos hex] at he2; exact h e2 he2
    · rw [if_neg hex] at he2
      refine updateEntry_forall
        (fun a => ∃ t ∈ tasks, t2Excluded userMap t = false
          ∧ a.owner = t2ResolvedName userMap t) _ _ _ ?_ ?_ e2 he2
      · intro e3 he3
        by_cases hk : hasKey acc (t2ResolvedName userMap x) = true
        · rw [if_pos hk] at he3; exact h e3 he3
        · rw [if_neg hk] at he3
          rcases List.mem_append.mp he3 with h1 | h1
          · exact h e3 h1
          · rcases List.mem_singleton.mp h1 with rfl
            exact ⟨x, hsub x (List.mem_cons_self _ _), Bool.eq_false_iff.mpr hex, rfl⟩
      · rintro a ⟨t, ht, hnex, hown⟩
        exact ⟨t, ht, hnex, by rw [t2Classify_owner]; exact hown⟩

/-- The deals loop run against full pages followed by a failing page
returns exactly the accumulator extended by those pages. -/
theorem ownerDealsLoop_finErr (limit : Nat) (hlim : 0 < limit) :
    ∀ (pre : List (List DealRec)), (∀ p ∈ pre, p.length = limit) →
    ∀ (e : String) (rest : List (Except String (List DealRec))) (acc : List DealRec),
      ownerDealsLoop limit (pre.map Except.ok ++ Except.error e :: rest) acc
        = acc ++ pre.flatten := by
  intro pre
  induction pre with
  | nil => intro _ e rest acc; simp [ownerDealsLoop]
  | cons p pre ih =>
    intro hfull e rest acc
    have hp : p.length = limit := hfull p (List.mem_cons_self _ _)
    simp only [List.map_cons, List.cons_append, ownerDealsLoop, List.append_eq]
    rw [if_neg (by omega), if_pos hp]
    rw [ih (fun q hq => hfull q (List.mem_cons_of_mem _ hq)) e rest (acc ++ p)]
    simp [List.flatten_cons, List.append_assoc]

/-- A tasks worker skips a failing per-deal request and processes the
remaining deals of its slice unchanged. -/
theorem tasksWorkerLoop_skips (resps1 resps2 : List (Except String (List TaskRec)))
    (e : String) :
    tasksWorkerLoop (resps1 ++ Except.error e :: resps2)
      = tasksWorkerLoop resps1 ++ tasksWorkerLoop resps2 := by
  induction resps1 with
  | nil => simp [tasksWorkerLoop]
  | cons r rs ih =>
    cases r with
    | error e2 => simp only [List.cons_append, tasksWorkerLoop, List.append_eq]; exact ih
    | ok page =>
      by_cases hp : page.length = 0
      · simp only [List.cons_append, tasksWorkerLoop, if_pos hp, List.append_eq]; exact ih
      · simp only [List.cons_append, tasksWorkerLoop, if_neg hp, List.append_eq]
        rw [ih, List.append_assoc]

/-- The page sizes `pagedFetch` observes on a resource of `limit * k + r`
records, `r < limit`: `k` full pages and one final short page of `r`. -/
theorem pagedFetch_sizes (limit r : Nat) (hlim : 0 < limit) (hr : r < limit) :
    ∀ (k : Nat) (resource : List DealRec), resource.length = limit * k + r →
      (pagedFetch limit resource).2 = List.replicate k limit ++ [r] := by
  intro k
  induction k with
  | zero =>
    intro resource hlen
    have hp : (resource.take limit).length = r := by
      rw [List.length_take, hlen]; omega
    rw [pagedFetch, dif_neg]
    · rw [hp]; rfl
    · rintro ⟨h1, h2⟩
      omega
  | succ k ih =>
    intro resource hlen
    have hp : (resource.take limit).length = limit := by
      rw [List.length_take, hlen, Nat.mul_succ]; omega
    have hdrop : (resource.drop limit).length = limit * k + r := by
      rw [List.length_drop, hlen, Nat.mul_succ]; omega
    rw [pagedFetch, dif_pos ⟨hp, hlim⟩]
    show (resource.take limit).length :: (pagedFetch limit (resource.drop limit)).2
        = List.replicate (k + 1) limit ++ [r]
    rw [ih _ hdrop, hp, List.replicate_succ]
    rfl

/-- The clipped worker slice equals a plain `drop`/`take` window of the
batch size. -/
theorem workerSlice_take (items : List DealRec) (w : Nat) :
    workerSlice items w
      = (items.drop (w * batchSizeOf items.length)).take (batchSizeOf items.length) := by
  unfold workerSlice
  by_cases hs : w * batchSizeOf items.length ≤ items.length
  · rw [List.take_eq_take]
    simp only [List.length_drop]
    omega
  · rw [List.drop_eq_nil_of_le (by omega)]
    simp
    omega

/-- Concatenating `k` consecutive `drop`/`take` windows of width `b`
reconstructs any list of at most `k * b` elements. -/
theorem flatten_chunks (b : Nat) :
    ∀ (k : Nat) (l : List DealRec), l.length ≤ k * b →
      ((List.range k).map (fun w => (l.drop (w * b)).take b)).flatten = l := by
  intro k
  induction k with
  | zero =>
    intro l hl
    simp only [Nat.zero_mul] at hl
    simp [List.length_eq_zero.mp (Nat.le_zero.mp hl)]
  | succ k ih =>
    intro l hl
    rw [List.range_succ_eq_map, List.map_cons, List.map_map, List.flatten_cons]
    have hmap : ((List.range k).map ((fun w => (l.drop (w * b)).take b) ∘ Nat.succ))
        = (List.range k).map (fun w => (((l.drop b).drop (w * b)).take b)) := by
      refine List.map_congr_left ?_
      intro w _
      simp only [Function.comp]
      rw [List.drop_drop]
      have hsw : Nat.succ w * b = b + w * b := by rw [Nat.succ_mul]; omega
      rw [hsw]
    rw [hmap, ih (l.drop b) (by rw [List.length_drop]; rw [Nat.succ_mul] at hl; omega)]
    simp [List.take_append_drop]

/-- C1: the claim that `activeRequests <= maxConcurrent` is an invariant
of every reachable limiter state fails on the code.  In this replayed
burst — one admitted call, then 21 `throttle` calls arriving while the
admitted caller's 200 ms interval window is open, then the 21 waiters
resuming — the limiter reaches `activeRequests = 21 > maxConcurrent = 20`,
because `throttle` checks `activeRequests < maxConcurrent` before the
`setTimeout` wait and only increments the counter afterwards. -/
theorem c1_max_concurrent_exceeded :
    (limiterRun c1Trace).map LimiterState.activeRequests = some 21
    ∧ maxConcurrent = 20 ∧ ¬ (21 ≤ maxConcurrent) := by decide

/-- C2: the claim that consecutively started throttled operations are at
least `minInterval` apart fails on the code.  Three calls arrive in the
same millisecond; the second and the third both compute their delay from
the same `lastRequestTime`, both wake at t = 1200, and both start then:
the recorded start log has two consecutive starts 0 ms apart, below
`minInterval = 200`. -/
theorem c2_min_interval_violated :
    (limiterRun c2Trace).map LimiterState.startTimes
      = some [(0, 1000), (1, 1200), (2, 1200)]
    ∧ 1200 - 1200 < minInterval := by decide

/-- C3 counterexample: the users fetcher does not return the records
accumulated before a failure — its loop body has no try/catch, so a
failing page request makes the whole loop reject instead of producing an
`Except.ok` result. -/
theorem c3_users_loop_propagates :
    usersLoop 100 [Except.error "HTTP 500"] [] = Except.error "HTTP 500"
    ∧ (usersLoop 100 [Except.error "HTTP 500"] []).isOk = false :=
  ⟨rfl, rfl⟩

/-- C3 (amended): a call-level failure on one page terminates the
deals-per-owner fetcher's loop and yields exactly the records
accumulated from the earlier full pages; a tasks-per-deal worker skips
the failing deal and continues with the rest of its slice; but the users
fetcher propagates the failure out of its loop (it is caught only by the
top-level handler, aborting the pipeline run). -/
theorem c3_failure_isolation_amended (limit : Nat) (hlim : 0 < limit)
    (pre : List (List DealRec)) (hfull : ∀ p ∈ pre, p.length = limit)
    (e1 : String) (restD : List (Except String (List DealRec)))
    (resps1 resps2 : List (Except String (List TaskRec))) (e2 : String)
    (e3 : String) (restU : List (Except String (List UserRec)))
    (userMap : List (String × String)) :
    ownerDealsLoop limit (pre.map Except.ok ++ Except.error e1 :: restD) [] = pre.flatten
    ∧ tasksWorkerLoop (resps1 ++ Except.error e2 :: resps2)
        = tasksWorkerLoop resps1 ++ tasksWorkerLoop resps2
    ∧ usersLoop limit (Except.error e3 :: restU) userMap = Except.error e3 := by
  refine ⟨?_, tasksWorkerLoop_skips resps1 resps2 e2, rfl⟩
  simpa using ownerDealsLoop_finErr limit hlim pre hfull e1 restD []

/-- C3 witness: the amended theorem instantiated at page size 2, one
full deals page before the failure, and one worker slice with a failing
middle request. -/
theorem c3_failure_isolation_amended_witness :
    (0 : Nat) < 2 ∧ (∀ p ∈ c3WitPre, p.length = 2)
    ∧ (ownerDealsLoop 2 (c3WitPre.map Except.ok ++ Except.error "boom" :: []) []
         = c3WitPre.flatten
       ∧ tasksWorkerLoop ([Except.ok [⟨"t1", StatusVal.num 0, none, "a"⟩]]
             ++ Except.error "boom2" :: [Except.ok [⟨"t2", StatusVal.num 0, none, "b"⟩]])
         = tasksWorkerLoop [Except.ok [⟨"t1", StatusVal.num 0, none, "a"⟩]]
             ++ tasksWorkerLoop [Except.ok [⟨"t2", StatusVal.num 0, none, "b"⟩]]
       ∧ usersLoop 2 (Except.error "boom3" :: []) [] = Except.error "boom3") :=
  ⟨by decide, by decide,
   c3_failure_isolation_amended 2 (by decide) c3WitPre (by decide) "boom" []
     [Except.ok [⟨"t1", StatusVal.num 0, none, "a"⟩]]
     [Except.ok [⟨"t2", StatusVal.num 0, none, "b"⟩]] "boom2" "boom3" [] []⟩

/-- C4 counterexample: the aggregation of `calculateMetrics` applies no
exclusion — fed a deal owned by id 16 whose directory name is the
operator account, it still emits an accumulator for owner 16, although
`shouldExcludeOwner` flags that owner both by id and by name. -/
theorem c4_endpoint_no_exclusion :
    (calcStep4 20250101 [("16", "Global Citizen Solutions Operator")]
        [⟨"d1", "16"⟩] []).map TaskMetrics.ownerId = ["16"]
    ∧ shouldExcludeOwner "Global Citizen Solutions Operator" (some "16") = true
    ∧ shouldExcludeOwner "Global Citizen Solutions Operator" none = true := by decide

/-- C4 (amended): the `Tab2Tasks` client aggregation drops excluded
owners entirely — every accumulator it outputs descends from some
non-excluded task — while the api/task-metrics endpoint applies no
exclusion check at all and keeps the operator out only because its
configured `OWNER_IDS` list does not contain `"16"`. -/
theorem c4_exclusion_amended (today : Nat) (userMap : List (String × String))
    (tasks : List T2Task) (m : T2Metrics)
    (hm : m ∈ tab2Metrics today userMap tasks) :
    OWNER_IDS.contains "16" = false
    ∧ ∃ t ∈ tasks, t2Excluded userMap t = false ∧ m.owner = t2ResolvedName userMap t := by
  refine ⟨by decide, ?_⟩
  unfold tab2Metrics at hm
  rw [mem_sortListBy] at hm
  rcases List.mem_map.mp hm with ⟨e, he, rfl⟩
  exact t2Fold_good today userMap tasks tasks (fun x hx => hx) [] (by simp) e he

/-- C4 witness: the amended theorem instantiated at a single
non-excluded task of owner 58. -/
theorem c4_exclusion_amended_witness :
    c4WitM ∈ tab2Metrics 20250101 [("58", "Jane")] c4WitTasks
    ∧ (OWNER_IDS.contains "16" = false
       ∧ ∃ t ∈ c4WitTasks, t2Excluded [("58", "Jane")] t = false
           ∧ c4WitM.owner = t2ResolvedName [("58", "Jane")] t) :=
  ⟨by decide, c4_exclusion_amended 20250101 [("58", "Jane")] c4WitTasks c4WitM (by decide)⟩

/-- C5 counterexample: an incomplete task with the non-empty unparseable
due date `"not-a-date"` increments `total` but none of the four buckets,
so the produced accumulator has `total = 1` against a bucket sum of `0`,
falsifying the claimed equality for arbitrary due-date strings. -/
theorem c5_unparseable_duedate :
    (calcStep4 20250101 [] [⟨"d1", "58"⟩]
        [⟨"t1", StatusVal.num 0, some "not-a-date", "d1"⟩]).map
      (fun m => (m.total, m.completed + m.overdue + m.openFutureDueDate + m.openNoDueDate))
      = [(1, 0)] ∧ (1 : Nat) ≠ 0 := by decide

/-- C5 (amended): every accumulator produced by the aggregation
satisfies `total = completed + overdue + openFutureDueDate +
openNoDueDate`, provided every input task is classifiable — completed,
or with an absent/empty due date, or with a due date string that parses
as a date; an incomplete task with a truthy unparseable due date
increments only `total`. -/
theorem c5_bucket_invariant_amended (today : Nat) (userMap : List (String × String))
    (deals : List DealRec) (tasks : List TaskRec)
    (hcl : ∀ t ∈ tasks, classifiable t = true)
    (m : TaskMetrics) (hm : m ∈ calcStep4 today userMap deals tasks) :
    m.total = m.completed + m.overdue + m.openFutureDueDate + m.openNoDueDate := by
  have h := calcStep4_sum today userMap deals tasks hcl m hm
  simpa [bucketSum] using h.symm

/-- C5 witness: the amended theorem instantiated at one overdue task. -/
theorem c5_bucket_invariant_amended_witness :
    (∀ t ∈ c5WitTasks, classifiable t = true)
    ∧ c5WitMetric ∈ calcStep4 20250101 [("58", "Jane")] [⟨"d1", "58"⟩] c5WitTasks
    ∧ c5WitMetric.total = c5WitMetric.completed + c5WitMetric.overdue
        + c5WitMetric.openFutureDueDate + c5WitMetric.openNoDueDate :=
  ⟨by decide, by decide,
   c5_bucket_invariant_amended 20250101 [("58", "Jane")] [⟨"d1", "58"⟩] c5WitTasks
     (by decide) c5WitMetric (by decide)⟩

/-- C6: a resource of exactly `limit * k` records costs `k + 1` page
requests, the last returning zero records, and a resource of
`limit * k + r` records with `0 < r < limit` costs `k + 1` requests, the
last returning the `r` short-page records and ending the loop. -/
theorem c6_page_request_counts (limit k r : Nat)
    (resA resB : List DealRec)
    (hlim : 0 < limit) (hk : 1 ≤ k)
    (hA : resA.length = limit * k)
    (hr1 : 0 < r) (hr2 : r < limit)
    (hB : resB.length = limit * k + r) :
    (pagedFetch limit resA).2.length = k + 1
    ∧ (pagedFetch limit resA).2.getLast? = some 0
    ∧ (pagedFetch limit resB).2.length = k + 1
    ∧ (pagedFetch limit resB).2.getLast? = some r := by
  have hsA := pagedFetch_sizes limit 0 hlim hlim k resA (by omega)
  have hsB := pagedFetch_sizes limit r hlim hr2 k resB hB
  rw [hsA, hsB]
  refine ⟨?_, ?_, ?_, ?_⟩ <;> simp [List.getLast?_concat]

/-- C6 witness: the theorem instantiated at `limit = 2`, `k = 2`,
`r = 1` on resources of 4 and 5 records. -/
theorem c6_page_request_counts_witness :
    (0 : Nat) < 2 ∧ (1 : Nat) ≤ 2 ∧ c6WitA.length = 2 * 2 ∧ (0 : Nat) < 1
    ∧ (1 : Nat) < 2 ∧ c6WitB.length = 2 * 2 + 1
    ∧ ((pagedFetch 2 c6WitA).2.length = 2 + 1
       ∧ (pagedFetch 2 c6WitA).2.getLast? = some 0
       ∧ (pagedFetch 2 c6WitB).2.length = 2 + 1
       ∧ (pagedFetch 2 c6WitB).2.getLast? = some 1) :=
  ⟨by decide, by decide, by decide, by decide, by decide, by decide,
   c6_page_request_counts 2 2 1 c6WitA c6WitB (by decide) (by decide) (by decide)
     (by decide) (by decide) (by decide)⟩

/-- C7: for any deal list, the concatenation of the 20 workers'
contiguous slices of size `ceil(N / 20)` (index ranges clipped to `N`)
is exactly the original list — every item is processed exactly once, no
duplication and no omission, including `N = 0` and `N < 20`. -/
theorem c7_worker_partition_exact (items : List DealRec) :
    allWorkerItems items = items := by
  unfold allWorkerItems
  rw [List.map_congr_left (fun w _ => workerSlice_take items w)]
  refine flatten_chunks (batchSizeOf items.length) 20 items ?_
  unfold batchSizeOf
  have h1 := Nat.div_add_mod (items.length + 19) 20
  have h2 : (items.length + 19) % 20 < 20 := Nat.mod_lt _ (by omega)
  omega

/-- C8: the directory name `"Jane | GCS Operator"` resolves to display
name `"Jane"`; and with today pinned to 2025-01-01, a task with status
`"1"` and due date `"2024-01-01"` increments `completed` and not
`overdue`, one with status `0` and due date `"2024-01-01"` increments
`overdue`, and one with status `0` and no due date increments
`openNoDueDate` — both per `classifyUpdate` step and through the whole
aggregation. -/
theorem c8_end_to_end_scenario :
    cleanOwnerName "Jane | GCS Operator" = "Jane"
    ∧ classifyUpdate 20250101 c8Jane ⟨"t1", StatusVal.str "1", some "2024-01-01", "d1"⟩
        = { c8Jane with total := 1, completed := 1 }
    ∧ classifyUpdate 20250101 c8Jane ⟨"t2", StatusVal.num 0, some "2024-01-01", "d1"⟩
        = { c8Jane with total := 1, overdue := 1 }
    ∧ classifyUpdate 20250101 c8Jane ⟨"t3", StatusVal.num 0, none, "d1"⟩
        = { c8Jane with total := 1, openNoDueDate := 1 }
    ∧ calcStep4 20250101 [("58", "Jane | GCS Operator")] [⟨"d1", "58"⟩]
        [⟨"t1", StatusVal.str "1", some "2024-01-01", "d1"⟩,
         ⟨"t2", StatusVal.num 0, some "2024-01-01", "d1"⟩,
         ⟨"t3", StatusVal.num 0, none, "d1"⟩]
        = [{ c8Jane with total := 3, completed := 1, overdue := 1, openNoDueDate := 1 }] := by
  decide

/-- C9: with the configuration present, a fresh cache entry is served
unchanged with `cached: true` regardless of what a recomputation would
do; a stale or absent entry triggers the pipeline, stores its result
under the current timestamp and answers `cached: false`; and a failing
recomputation answers 500 with the error while leaving the previous
cache entry (or its absence) untouched. -/
theorem c9_cache_behaviour (apiUrl apiToken : String)
    (hu : apiUrl ≠ "") (ht : apiToken ≠ "")
    (entryF : CacheEntry) (nowF : Int)
    (hfresh : nowF - entryF.timestamp < CACHE_DURATION)
    (entryS : CacheEntry) (nowS : Int)
    (hstale : CACHE_DURATION ≤ nowS - entryS.timestamp)
    (now : Int) (cmp : Except String (List TaskMetrics))
    (ms : List TaskMetrics) (e : String) :
    handlerModel (some apiUrl) (some apiToken) (some entryF) nowF cmp
      = { status := 200, body := HandlerBody.metricsBody entryF.metrics true,
          cache := some entryF }
    ∧ handlerModel (some apiUrl) (some apiToken) (some entryS) nowS (Except.ok ms)
      = { status := 200, body := HandlerBody.metricsBody ms false,
          cache := some { metrics := ms, timestamp := nowS } }
    ∧ handlerModel (some apiUrl) (some apiToken) none now (Except.ok ms)
      = { status := 200, body := HandlerBody.metricsBody ms false,
          cache := some { metrics := ms, timestamp := now } }
    ∧ handlerModel (some apiUrl) (some apiToken) (some entryS) nowS (Except.error e)
      = { status := 500, body := HandlerBody.errorBody e, cache := some entryS }
    ∧ handlerModel (some apiUrl) (some apiToken) none now (Except.error e)
      = { status := 500, body := HandlerBody.errorBody e, cache := none } := by
  have hcfg : (strFalsy (some apiUrl) || strFalsy (some apiToken)) = false := by
    simp [strFalsy, hu, ht]
  refine ⟨?_, ?_, ?_, ?_, ?_⟩ <;>
    simp [handlerModel, hcfg, handlerCompute, hfresh, not_lt.mpr hstale]

/-- C9 witness: the theorem instantiated at a concrete entry computed at
time 0, queried 10 ms later (fresh) and exactly one hour later
(stale). -/
theorem c9_cache_behaviour_witness :
    ("u" : String) ≠ "" ∧ ("t" : String) ≠ ""
    ∧ ((10 : Int) - (0 : Int) < CACHE_DURATION)
    ∧ (CACHE_DURATION ≤ (3600000 : Int) - (0 : Int))
    ∧ (handlerModel (some "u") (some "t") (some ⟨[], 0⟩) 10 (Except.error "y")
        = { status := 200, body := HandlerBody.metricsBody ([] : List TaskMetrics) true,
            cache := some ⟨[], 0⟩ }
      ∧ handlerModel (some "u") (some "t") (some ⟨[], 0⟩) 3600000 (Except.ok [])
        = { status := 200, body := HandlerBody.metricsBody ([] : List TaskMetrics) false,
            cache := some { metrics := [], timestamp := 3600000 } }
      ∧ handlerModel (some "u") (some "t") none 5 (Except.ok [])
        = { status := 200, body := HandlerBody.metricsBody ([] : List TaskMetrics) false,
            cache := some { metrics := [], timestamp := 5 } }
      ∧ handlerModel (some "u") (some "t") (some ⟨[], 0⟩) 3600000 (Except.error "x")
        = { status := 500, body := HandlerBody.errorBody "x", cache := some ⟨[], 0⟩ }
      ∧ handlerModel (some "u") (some "t") none 5 (Except.error "x")
        = { status := 500, body := HandlerBody.errorBody "x", cache := none }) :=
  ⟨by decide, by decide, by decide, by decide,
   c9_cache_behaviour "u" "t" (by decide) (by decide) ⟨[], 0⟩ 10 (by decide)
     ⟨[], 0⟩ 3600000 (by decide) 5 (Except.error "y") [] "x"⟩

/-- C10: the id-based exclusion fires for every display name —
`shouldExcludeOwner` returns true whenever the owner id is `"16"`,
whether or not the name contains the operator substring, so the two
exclusion mechanisms are independently sufficient. -/
theorem c10_id_exclusion_unconditional (fullName : String) :
    shouldExcludeOwner fullName (some "16") = true := by
  simp [shouldExcludeOwner]
